import Mathlib

/-!
Shallow embedding of the Enhanced Windows Stock Price Monitor
(`src/main.py`, class `WindowsStockMonitor`).

Python floats are modelled as `Rat`; Python `dict` as an association list
with first-binding-wins lookup and replace-or-append update; the GUI
widgets that the core writes (the alerts `Listbox`, the status
`StringVar`) are fields of the monitor state; the network provider, the
SMTP transport, and wall-clock sleeps are external, so provider responses
and the transport outcome are passed in as parameters and fetch calls,
log lines, sleeps, renders and e-mail outcomes are recorded as events.
Threads are modelled as a list of per-session alive flags (one entry per
`threading.Thread` that has been started, `self.thread` being the last);
one loop iteration is atomic and `join` runs the joined session to its
exit.
-/

namespace StockMonitor

/-- Which threshold a crossing refers to (the strings "upper" / "lower"
in the source). -/
inductive TKind where
  | upper
  | lower
deriving DecidableEq

/-- An entry of the visible alerts list.  The source formats it as
a string; we keep the fields it interpolates. -/
structure Alert where
  symbol : String
  price : Rat
  kind : TKind
  bound : Rat
deriving DecidableEq

/-- Ways the SMTP session inside send_email_alert can fail. -/
inductive SmtpError where
  | auth
  | conn
  | timeout
deriving DecidableEq

/-- Observable side effects of the monitor core: a provider call, an
error log line, the 2-second retry sleep, an alert log line, an e-mail
outcome log line, a chart redraw, and the inter-cycle sleep. -/
inductive Ev where
  | fetchCall
  | logError
  | sleep2
  | alertLog (a : Alert)
  | emailSent (symbol : String)
  | emailFailed (e : SmtpError)
  | render
  | sleepInt (seconds : Nat)
deriving DecidableEq

/-- One provider response to ts.get_intraday: either an exception, or a
table of (timestamp, close price) rows, newest row first.  The table may
be empty. -/
inductive FetchResp where
  | exn
  | ok (rows : List (Nat × Rat))
deriving DecidableEq

/-- The per-symbol threshold record stored in self.thresholds
(a value of None means the entry field was left empty). -/
structure ThresholdCfg where
  upper : Option Rat
  lower : Option Rat
deriving DecidableEq

/-- The e-mail configuration saved by the configuration dialog. -/
structure EmailConfig where
  sender : String
  password : String
  receiver : String
  smtp_server : String
  smtp_port : Nat
deriving DecidableEq

/-- The status StringVar: "Status: Idle" or
"Status: Monitoring SYM - price". -/
inductive Status where
  | idle
  | monitoring (symbol : String) (price : Rat)
deriving DecidableEq

/-- The mutable state of a WindowsStockMonitor instance, plus the list of
alive flags of the threads it has started (newest last). -/
structure MonState where
  running : Bool
  data : List (String × List (Nat × Rat))
  thresholds : List (String × ThresholdCfg)
  email_config : Option EmailConfig
  alerts_list : List Alert
  status : Status
  sessions : List Bool
deriving DecidableEq

/-- Lookup in the Python-dict model. -/
def dictGet {V : Type} : List (String × V) → String → Option V
  | [], _ => none
  | (k, v) :: d, key => if k = key then some v else dictGet d key

/-- Membership test in the Python-dict model (the `in` operator). -/
def dictContains {V : Type} : List (String × V) → String → Bool
  | [], _ => false
  | (k, _) :: d, key => if k = key then true else dictContains d key

/-- Replace-or-append update in the Python-dict model
(`d[key] = v`). -/
def dictSet {V : Type} : List (String × V) → String → V → List (String × V)
  | [], key, v => [(key, v)]
  | (k, w) :: d, key, v =>
    if k = key then (key, v) :: d else (k, w) :: dictSet d key v

/-- The state built by __init__ (before any button is pressed). -/
def initState : MonState :=
  { running := false
    data := []
    thresholds := []
    email_config := none
    alerts_list := []
    status := Status.idle
    sessions := [] }

/-- The body of fetch_price: up to `fuel` attempts starting at attempt
index `i`; each attempt calls the provider; a non-empty table returns its
first row; an exception logs the error and sleeps 2 seconds; an empty
table silently consumes the attempt. -/
def fetchAttempts (resps : Nat → FetchResp) : Nat → Nat → Option (Nat × Rat) × List Ev
  | _, 0 => (none, [])
  | i, Nat.succ n =>
    match resps i with
    | FetchResp.exn =>
      let r := fetchAttempts resps (i + 1) n
      (r.1, Ev.fetchCall :: Ev.logError :: Ev.sleep2 :: r.2)
    | FetchResp.ok [] =>
      let r := fetchAttempts resps (i + 1) n
      (r.1, Ev.fetchCall :: r.2)
    | FetchResp.ok (row :: _) => (some row, [Ev.fetchCall])

/-- fetch_price: retry loop of 3 attempts; returns (None, None) —
here `none` — after the loop exhausts. -/
def fetch_price (resps : Nat → FetchResp) : Option (Nat × Rat) × List Ev :=
  fetchAttempts resps 0 3

/-- send_email_alert: returns immediately when no e-mail configuration is
present; otherwise runs the SMTP session, whose outcome is the
`transport` parameter, logging success and catching (logging) every
failure.  The codomain is a plain event list: nothing propagates. -/
def send_email_alert (email_config : Option EmailConfig) (symbol : String)
    (price : Rat) (ttype : TKind) (transport : Except SmtpError Unit) : List Ev :=
  match email_config with
  | none => []
  | some _ =>
    match transport with
    | Except.ok _ => [Ev.emailSent symbol]
    | Except.error e => [Ev.emailFailed e]

/-- pd.concat([old, new]).tail(50): keep only the last 50 rows. -/
def tail50 {α : Type} (l : List α) : List α :=
  l.drop (l.length - 50)

/-- update_data: fetch, and if the price is truthy (Python `if price:`,
i.e. not None and non-zero) append to the bounded history and run the two
truthiness-guarded threshold checks, each firing an alerts-list insert, a
log line and send_email_alert.  Returns the new state, the value
update_data returns (`price` or None), and the events. -/
def update_data (resps : Nat → FetchResp) (transport : Except SmtpError Unit)
    (symbol : String) (s : MonState) : MonState × Option Rat × List Ev :=
  let fr := fetch_price resps
  match fr.1 with
  | none => (s, none, fr.2)
  | some (t, p) =>
    if p ≠ 0 then
      let data0 := if dictContains s.data symbol then s.data else dictSet s.data symbol []
      let hist := (dictGet data0 symbol).getD []
      let data1 := dictSet data0 symbol (tail50 (hist ++ [(t, p)]))
      let s1 := { s with data := data1 }
      let upper := (dictGet s.thresholds symbol).bind ThresholdCfg.upper
      let lower := (dictGet s.thresholds symbol).bind ThresholdCfg.lower
      let r2 :=
        match upper with
        | some u =>
          if u ≠ 0 ∧ u < p then
            let a : Alert := { symbol := symbol, price := p, kind := TKind.upper, bound := u }
            ({ s1 with alerts_list := s1.alerts_list ++ [a] },
              Ev.alertLog a :: send_email_alert s.email_config symbol p TKind.upper transport)
          else (s1, ([] : List Ev))
        | none => (s1, ([] : List Ev))
      let r3 :=
        match lower with
        | some l =>
          if l ≠ 0 ∧ p < l then
            let a : Alert := { symbol := symbol, price := p, kind := TKind.lower, bound := l }
            ({ r2.1 with alerts_list := r2.1.alerts_list ++ [a] },
              Ev.alertLog a :: send_email_alert s.email_config symbol p TKind.lower transport)
          else (r2.1, ([] : List Ev))
        | none => (r2.1, ([] : List Ev))
      (r3.1, some p, fr.2 ++ r2.2 ++ r3.2)
    else (s, none, fr.2)

/-- The rolling(window=w).mean() of pandas applied to a price column:
emitted left to right, carrying the reversed prefix seen so far; a
position with fewer than w points available is NaN, modelled `none`. -/
def rollingMeanGo (w : Nat) (seen : List Rat) : List Rat → List (Option Rat)
  | [] => []
  | x :: xs =>
    let seen1 := x :: seen
    (if w ≤ seen1.length then some ((seen1.take w).sum / (w : Rat)) else none)
      :: rollingMeanGo w seen1 xs

/-- df['price'].rolling(window=w).mean() on a price series. -/
def rolling_mean (w : Nat) (l : List Rat) : List (Option Rat) :=
  rollingMeanGo w [] l

/-- One iteration of the body of monitoring_loop: update_data, then on a
truthy price set the status text and redraw the chart, then
time.sleep(interval). -/
def monitoring_loop_iter (resps : Nat → FetchResp) (transport : Except SmtpError Unit)
    (symbol : String) (interval : Nat) (s : MonState) : MonState × List Ev :=
  let r := update_data resps transport symbol s
  match r.2.1 with
  | some p =>
    ({ r.1 with status := Status.monitoring symbol p },
      r.2.2 ++ [Ev.render, Ev.sleepInt interval])
  | none => (r.1, r.2.2 ++ [Ev.sleepInt interval])

/-- One scheduler step of session `i`: a dead (or non-existent) session
does nothing; an alive session re-checks `while self.running and symbol`
and either runs one loop iteration or exits, its exit epilogue setting
the status text back to Idle. -/
def threadStepAt (i : Nat) (resps : Nat → FetchResp) (transport : Except SmtpError Unit)
    (sym : String) (interval : Nat) (s : MonState) : MonState × List Ev :=
  match s.sessions[i]? with
  | some true =>
    if s.running ∧ sym ≠ "" then
      monitoring_loop_iter resps transport sym interval s
    else
      ({ s with sessions := s.sessions.set i false, status := Status.idle }, [])
  | _ => (s, [])

/-- stop_monitoring: clear the running flag, then (when a thread
attribute exists, i.e. some session was started) join self.thread — the
most recent session — which, seeing running = False, exits after writing
the Idle status.  Joining an already-exited session changes nothing. -/
def stop_monitoring (s : MonState) : MonState :=
  let s1 := { s with running := false }
  match s1.sessions.getLast? with
  | none => s1
  | some alive =>
    if alive then
      { s1 with sessions := s1.sessions.dropLast ++ [false], status := Status.idle }
    else s1

/-- The text of a threshold Entry widget, abstracted to the three cases
`float()` distinguishes: empty string, non-numeric text, a number. -/
inductive EntryInput where
  | empty
  | invalid
  | num (q : Rat)
deriving DecidableEq

/-- Outcome of pressing Start: one of the three messagebox errors, or
monitoring started. -/
inductive StartOutcome where
  | errEmptySymbol
  | errInvalidNumber
  | errOrder
  | started
deriving DecidableEq

/-- float(entry.get()) if entry.get() else None, with ValueError as
`Except.error`. -/
def parseEntry : EntryInput → Except Unit (Option Rat)
  | EntryInput.empty => Except.ok none
  | EntryInput.invalid => Except.error ()
  | EntryInput.num q => Except.ok (some q)

/-- Python str.upper(), as the character-wise uppercase map (the model
keeps it executable down to the kernel). -/
def pyUpper (s : String) : String :=
  String.mk (s.data.map Char.toUpper)

/-- The tail of start_monitoring after validation and the stop of a
running session: set the running flag and start the new thread. -/
def launch (s : MonState) : MonState :=
  let s3 := { s with running := true }
  { s3 with sessions := s3.sessions ++ [true] }

/-- start_monitoring: validate (empty symbol, ValueError on a threshold
field, then the truthiness-guarded `upper and lower and upper <= lower`
check), then record the thresholds, stop a running session, set the
running flag and start the new thread. -/
def start_monitoring (symRaw : String) (upperEntry lowerEntry : EntryInput)
    (s : MonState) : MonState × StartOutcome :=
  let symbol := pyUpper symRaw
  if symbol = "" then (s, StartOutcome.errEmptySymbol)
  else
    match parseEntry upperEntry, parseEntry lowerEntry with
    | Except.error _, _ => (s, StartOutcome.errInvalidNumber)
    | _, Except.error _ => (s, StartOutcome.errInvalidNumber)
    | Except.ok upper, Except.ok lower =>
      let bad : Bool :=
        match upper, lower with
        | some u, some l => decide (u ≠ 0 ∧ l ≠ 0 ∧ u ≤ l)
        | _, _ => false
      if bad then (s, StartOutcome.errOrder)
      else
        let s1 := { s with thresholds := dictSet s.thresholds symbol { upper := upper, lower := lower } }
        let s2 := if s1.running then stop_monitoring s1 else s1
        (launch s2, StartOutcome.started)

/-- Number of alive monitoring sessions. -/
def aliveCount (l : List Bool) : Nat :=
  l.count true

/-- Every session but possibly the newest has exited. -/
def onlyLastAlive (l : List Bool) : Bool :=
  l.dropLast.all (fun b => !b)

/-- States reachable through the single foreground thread: at most the
newest session is alive, and when the running flag is down every session
has exited (stop joins before returning). -/
def goodState (s : MonState) : Bool :=
  onlyLastAlive s.sessions && (s.running || s.sessions.count true == 0)

/-- Whether a provider response lets fetch_price return at that attempt
(a non-empty table). -/
def isSuccess : FetchResp → Bool
  | FetchResp.ok (_ :: _) => true
  | _ => false

/-- Events of a consumed (not returned-from) attempt: an exception logs
and sleeps, an empty table is silent. -/
def attemptEvs : FetchResp → List Ev
  | FetchResp.exn => [Ev.fetchCall, Ev.logError, Ev.sleep2]
  | FetchResp.ok _ => [Ev.fetchCall]

/-- Events of the first n consumed attempts. -/
def fetchTrace (resps : Nat → FetchResp) (n : Nat) : List Ev :=
  ((List.range n).map (fun i => attemptEvs (resps i))).join

/-- The history stored for a symbol (empty when the symbol is absent). -/
def histOf (s : MonState) (sym : String) : List (Nat × Rat) :=
  (dictGet s.data sym).getD []

/-- Run one update_data cycle per point, the provider answering each
cycle's first attempt with a one-row table holding that point. -/
def runUpdates (sym : String) (pts : List (Nat × Rat)) (s : MonState) : MonState :=
  pts.foldl
    (fun st pt => (update_data (fun _ => FetchResp.ok [pt]) (Except.ok ()) sym st).1) s

/-- A state with one running session, as produced by a successful
start_monitoring from initState. -/
def sampleRunning : MonState :=
  { initState with running := true, sessions := [true] }

/-- A reachable state whose thresholds hold upper = 0.0 for IBM (entered
as "0" in the upper field, which validation lets through). -/
def zeroUpperState : MonState :=
  { initState with thresholds := [("IBM", { upper := some 0, lower := none })] }

lemma dictGet_dictSet {V : Type} (d : List (String × V)) (k : String) (v : V) :
    dictGet (dictSet d k v) k = some v := by
  induction d with
  | nil => simp [dictSet, dictGet]
  | cons kv d ih =>
    obtain ⟨a, w⟩ := kv
    by_cases h : a = k
    · simp [dictSet, dictGet, h]
    · simp [dictSet, dictGet, h, ih]

lemma dictGet_eq_none_of_contains_false {V : Type} (d : List (String × V)) (k : String)
    (h : dictContains d k = false) : dictGet d k = none := by
  induction d with
  | nil => simp [dictGet]
  | cons kv d ih =>
    obtain ⟨a, w⟩ := kv
    by_cases ha : a = k
    · simp [dictContains, ha] at h
    · simp [dictContains, ha] at h
      simp [dictGet, ha, ih h]

lemma tail50_append_right {α : Type} (xs ys : List α) :
    tail50 (tail50 xs ++ ys) = tail50 (xs ++ ys) := by
  unfold tail50
  rw [List.drop_append_eq_append_drop, List.drop_append_eq_append_drop, List.drop_drop]
  have h1 : xs.length - 50 + ((xs.drop (xs.length - 50) ++ ys).length - 50)
      = (xs ++ ys).length - 50 := by
    simp [List.length_append, List.length_drop]
    omega
  have h2 : (xs.drop (xs.length - 50) ++ ys).length - 50 - (xs.drop (xs.length - 50)).length
      = (xs ++ ys).length - 50 - xs.length := by
    simp [List.length_append, List.length_drop]
    omega
  rw [h1, h2]

lemma foldl_tail50 {α : Type} :
    ∀ (pts : List α) (h0 : List α), h0.length ≤ 50 →
      List.foldl (fun h pt => tail50 (h ++ [pt])) h0 pts = tail50 (h0 ++ pts) := by
  intro pts
  induction pts with
  | nil =>
    intro h0 hlen
    simp [tail50, Nat.sub_eq_zero_of_le hlen]
  | cons pt pts ih =>
    intro h0 hlen
    rw [List.foldl_cons]
    have hlen2 : (tail50 (h0 ++ [pt])).length ≤ 50 := by
      simp [tail50, List.length_drop]
      omega
    rw [ih _ hlen2, tail50_append_right]
    simp

lemma update_data_hist (resps : Nat → FetchResp) (o : Except SmtpError Unit)
    (sym : String) (s : MonState) (t : Nat) (p : Rat)
    (hf : (fetch_price resps).1 = some (t, p)) (hp : p ≠ 0) :
    histOf (update_data resps o sym s).1 sym = tail50 (histOf s sym ++ [(t, p)]) := by
  have hdata : (update_data resps o sym s).1.data
      = dictSet (if dictContains s.data sym then s.data else dictSet s.data sym [])
          sym (tail50 (((dictGet (if dictContains s.data sym then s.data
            else dictSet s.data sym []) sym).getD []) ++ [(t, p)])) := by
    unfold update_data
    simp only [hf]
    rw [if_pos hp]
    rcases hu : (dictGet s.thresholds sym).bind ThresholdCfg.upper with _ | u <;>
      rcases hl : (dictGet s.thresholds sym).bind ThresholdCfg.lower with _ | l <;>
      simp only [hu, hl] <;> split_ifs <;> rfl
  unfold histOf
  rw [hdata, dictGet_dictSet]
  by_cases hc : dictContains s.data sym
  · simp [hc]
  · simp only [Bool.not_eq_true] at hc
    simp [hc, dictGet_dictSet, dictGet_eq_none_of_contains_false s.data sym hc]

lemma runUpdates_hist (sym : String) :
    ∀ (pts : List (Nat × Rat)) (s : MonState), (∀ p ∈ pts, p.2 ≠ (0:Rat)) →
      histOf (runUpdates sym pts s) sym
        = List.foldl (fun h pt => tail50 (h ++ [pt])) (histOf s sym) pts := by
  intro pts
  induction pts with
  | nil => intro s _; simp [runUpdates]
  | cons pt pts ih =>
    intro s h
    have hp : pt.2 ≠ 0 := h pt (by simp)
    have hstep := update_data_hist (fun _ => FetchResp.ok [pt]) (Except.ok ()) sym s
      pt.1 pt.2 rfl hp
    have hrun : runUpdates sym (pt :: pts) s
        = runUpdates sym pts
            ((update_data (fun _ => FetchResp.ok [pt]) (Except.ok ()) sym s).1) := by
      simp [runUpdates]
    rw [hrun, ih _ (fun q hq => h q (List.mem_cons_of_mem _ hq)), hstep]
    rw [List.foldl_cons]

/-- C6: iterating the update cycle on one symbol keeps the stored history
at the last min(n, 50) appended points in insertion order (pd.concat
followed by tail(50) is FIFO eviction bounded by 50). -/
theorem history_bounded_fifo (sym : String) (pts : List (Nat × Rat))
    (hnz : ∀ p ∈ pts, p.2 ≠ (0:Rat)) :
    histOf (runUpdates sym pts initState) sym = pts.drop (pts.length - 50) ∧
    (histOf (runUpdates sym pts initState) sym).length = min pts.length 50 := by
  have h := runUpdates_hist sym pts initState hnz
  have h0 : histOf initState sym = [] := rfl
  rw [h0] at h
  rw [foldl_tail50 pts [] (by simp)] at h
  constructor
  · simpa [tail50] using h
  · rw [h]
    simp [tail50, List.length_drop]
    omega

/-- C6 witness: three appends from the initial state store exactly those
three points. -/
theorem history_bounded_fifo_witness :
    histOf (runUpdates "IBM" [(0, 1), (1, 2), (2, 3)] initState) "IBM"
      = [(0, 1), (1, 2), (2, 3)] := by
  have h := history_bounded_fifo "IBM" [(0, 1), (1, 2), (2, 3)] (by decide)
  rw [h.1]
  rfl

/-- C10: a successful fetch whose price is exactly 0.0 is treated like an
unavailable fetch by the truthiness test `if price:` — nothing is
appended, no threshold check or alert runs, update_data returns None and
the loop leaves the status text unchanged. -/
theorem zero_price_treated_unavailable (t : Nat) (o : Except SmtpError Unit)
    (sym : String) (itv : Nat) (s : MonState) :
    fetch_price (fun _ => FetchResp.ok [(t, 0)]) = (some (t, 0), [Ev.fetchCall]) ∧
    update_data (fun _ => FetchResp.ok [(t, 0)]) o sym s = (s, none, [Ev.fetchCall]) ∧
    monitoring_loop_iter (fun _ => FetchResp.ok [(t, 0)]) o sym itv s
      = (s, [Ev.fetchCall, Ev.sleepInt itv]) := by
  have hu : update_data (fun _ => FetchResp.ok [(t, 0)]) o sym s = (s, none, [Ev.fetchCall]) := by
    simp [update_data, fetch_price, fetchAttempts]
  exact ⟨rfl, hu, by simp [monitoring_loop_iter, hu]⟩

/-- C9: a cycle whose fetch comes back unavailable is a no-op — the whole
monitor state (history, alerts, status) is unchanged, update_data returns
None, and the loop just sleeps until the next interval. -/
theorem unavailable_cycle_noop (resps : Nat → FetchResp) (o : Except SmtpError Unit)
    (sym : String) (itv : Nat) (s : MonState) (evs : List Ev)
    (hf : fetch_price resps = (none, evs)) :
    update_data resps o sym s = (s, none, evs) ∧
    monitoring_loop_iter resps o sym itv s = (s, evs ++ [Ev.sleepInt itv]) := by
  have h1 : update_data resps o sym s = (s, none, evs) := by
    simp [update_data, hf]
  exact ⟨h1, by simp [monitoring_loop_iter, h1]⟩

/-- C9 witness: with the provider failing all three attempts the cycle
changes nothing and only logs, sleeps and moves on. -/
theorem unavailable_cycle_noop_witness :
    update_data (fun _ => FetchResp.exn) (Except.ok ()) "IBM" initState
      = (initState, none,
          [Ev.fetchCall, Ev.logError, Ev.sleep2, Ev.fetchCall, Ev.logError, Ev.sleep2,
            Ev.fetchCall, Ev.logError, Ev.sleep2]) ∧
    monitoring_loop_iter (fun _ => FetchResp.exn) (Except.ok ()) "IBM" 60 initState
      = (initState,
          [Ev.fetchCall, Ev.logError, Ev.sleep2, Ev.fetchCall, Ev.logError, Ev.sleep2,
            Ev.fetchCall, Ev.logError, Ev.sleep2, Ev.sleepInt 60]) :=
  unavailable_cycle_noop (fun _ => FetchResp.exn) (Except.ok ()) "IBM" 60 initState _ rfl

lemma notSuccess_shape (r : FetchResp) (h : isSuccess r = false) :
    r = FetchResp.exn ∨ r = FetchResp.ok [] := by
  cases r with
  | exn => exact Or.inl rfl
  | ok rows =>
    cases rows with
    | nil => exact Or.inr rfl
    | cons a l => simp [isSuccess] at h

/-- C5: fetch_price makes up to 3 attempts; each failed attempt that was
a provider error logs the error and sleeps 2 seconds (an empty table
consumes the attempt silently); the first attempt whose table is
non-empty returns its newest (timestamp, price) row; and when all 3
attempts fail it returns the unavailable result `none` instead of
raising. -/
theorem fetch_price_retry (resps : Nat → FetchResp) (j : Nat) :
    (j < 3 → (∀ i, i < j → isSuccess (resps i) = false) →
      ∀ t p rest, resps j = FetchResp.ok ((t, p) :: rest) →
        fetch_price resps = (some (t, p), fetchTrace resps j ++ [Ev.fetchCall])) ∧
    ((∀ i, i < 3 → isSuccess (resps i) = false) →
      fetch_price resps = (none, fetchTrace resps 3)) := by
  constructor
  · intro hj hprev t p rest hj'
    interval_cases j
    · simp [fetch_price, fetchAttempts, hj', fetchTrace]
    · rcases notSuccess_shape _ (hprev 0 (by omega)) with h0 | h0 <;>
        simp [fetch_price, fetchAttempts, h0, hj', fetchTrace, attemptEvs, List.range_succ]
    · rcases notSuccess_shape _ (hprev 0 (by omega)) with h0 | h0 <;>
        rcases notSuccess_shape _ (hprev 1 (by omega)) with h1 | h1 <;>
        simp [fetch_price, fetchAttempts, h0, h1, hj', fetchTrace, attemptEvs, List.range_succ]
  · intro h
    rcases notSuccess_shape _ (h 0 (by omega)) with h0 | h0 <;>
      rcases notSuccess_shape _ (h 1 (by omega)) with h1 | h1 <;>
      rcases notSuccess_shape _ (h 2 (by omega)) with h2 | h2 <;>
      simp [fetch_price, fetchAttempts, h0, h1, h2, fetchTrace, attemptEvs, List.range_succ]

/-- C5 witness: one provider error followed by a success returns the
success row after one logged error and one 2-second sleep. -/
theorem fetch_price_retry_witness :
    fetch_price (fun i => if i = 0 then FetchResp.exn else FetchResp.ok [(7, 3)])
      = (some (7, 3), [Ev.fetchCall, Ev.logError, Ev.sleep2, Ev.fetchCall]) := by
  have h := (fetch_price_retry
      (fun i => if i = 0 then FetchResp.exn else FetchResp.ok [(7, 3)]) 1).1
    (by omega) (by intro i hi; interval_cases i; rfl) 7 3 [] rfl
  simpa [fetchTrace, attemptEvs, List.range_succ] using h

lemma rollingMeanGo_getElem (w : Nat) :
    ∀ (l seen : List Rat) (i k : Nat), k = seen.length + i + 1 → i < l.length →
      (rollingMeanGo w seen l)[i]?
        = some (if k < w then none
            else some ((((seen.reverse ++ l).take k).drop (k - w)).sum / (w : Rat))) := by
  intro l
  induction l with
  | nil =>
    intro seen i k hk hi
    simp at hi
  | cons x xs ih =>
    intro seen i k hk hi
    cases i with
    | zero =>
      have hk1 : k = seen.length + 1 := by omega
      subst hk1
      by_cases hw : seen.length + 1 < w
      · have hw2 : ¬ (w ≤ seen.length + 1) := by omega
        simp [rollingMeanGo, hw, hw2]
      · have hw' : w ≤ seen.length + 1 := by omega
        have h1 : (seen.reverse ++ x :: xs).take (seen.length + 1) = seen.reverse ++ [x] := by
          rw [List.take_append_eq_append_take]
          have e1 : seen.reverse.take (seen.length + 1) = seen.reverse :=
            List.take_all_of_le (by simp)
          have e2 : seen.length + 1 - seen.reverse.length = 1 := by simp
          rw [e1, e2]
          simp
        have h3 : (seen.reverse ++ [x]).drop (seen.length + 1 - w)
            = ((x :: seen).take w).reverse := by
          have hrev : seen.reverse ++ [x] = (x :: seen).reverse := by simp
          rw [hrev, List.reverse_take]
          simp
        simp only [rollingMeanGo, List.getElem?_cons_zero, List.length_cons]
        rw [if_pos hw', if_neg hw, h1, h3, List.sum_reverse]
    | succ i =>
      have hi' : i < xs.length := by
        simp at hi
        omega
      have hk' : k = (x :: seen).length + i + 1 := by
        simp
        omega
      have h := ih (x :: seen) i k hk' hi'
      have e : (x :: seen).reverse ++ xs = seen.reverse ++ x :: xs := by simp
      rw [e] at h
      simpa [rollingMeanGo] using h

/-- C7: the 5-period moving average of update_chart yields, at each index
with at least 5 points available, the trailing arithmetic mean of the 5
points ending there, and `none` (pandas NaN: undefined, not zero, not an
error) at indices 0 to 3; on [10,20,30,40,50,60] it is undefined at
indices 0-3, 30.0 at index 4 and 40.0 at index 5. -/
theorem rolling_mean_spec (l : List Rat) (i : Nat) :
    (i < l.length →
      (rolling_mean 5 l)[i]?
        = some (if i + 1 < 5 then none
            else some (((l.take (i + 1)).drop (i + 1 - 5)).sum / ((5 : Nat) : Rat)))) ∧
    rolling_mean 5 [10, 20, 30, 40, 50, 60]
      = [none, none, none, none, some 30, some 40] := by
  constructor
  · intro hi
    have h := rollingMeanGo_getElem 5 l [] i (i + 1) (by simp) hi
    simpa [rolling_mean] using h
  · norm_num [rolling_mean, rollingMeanGo]

/-- C7 witness: index 4 of the example series evaluates to 30. -/
theorem rolling_mean_spec_witness :
    (rolling_mean 5 [10, 20, 30, 40, 50, 60])[4]? = some (some 30) ∧
    rolling_mean 5 [10, 20, 30, 40, 50, 60] = [none, none, none, none, some 30, some 40] := by
  constructor
  · have h := (rolling_mean_spec [10, 20, 30, 40, 50, 60] 4).1 (by decide)
    rw [h]
    norm_num
  · exact (rolling_mean_spec [10, 20, 30, 40, 50, 60] 0).2

lemma update_data_state_transport (resps : Nat → FetchResp)
    (o1 o2 : Except SmtpError Unit) (symbol : String) (s : MonState) :
    (update_data resps o1 symbol s).1 = (update_data resps o2 symbol s).1 ∧
    (update_data resps o1 symbol s).2.1 = (update_data resps o2 symbol s).2.1 := by
  unfold update_data
  rcases hf : (fetch_price resps).1 with _ | ⟨t, pr⟩
  · simp [hf]
  · simp only [hf]
    by_cases hp : pr ≠ 0
    · rw [if_pos hp, if_pos hp]
      rcases hu : (dictGet s.thresholds symbol).bind ThresholdCfg.upper with _ | u <;>
        rcases hl : (dictGet s.thresholds symbol).bind ThresholdCfg.lower with _ | l <;>
        simp only [hu, hl] <;> constructor <;>
        first
          | rfl
          | trivial
          | (split_ifs <;> rfl)
    · rw [if_neg hp, if_neg hp]
      exact ⟨rfl, rfl⟩

lemma update_data_running (resps : Nat → FetchResp) (o : Except SmtpError Unit)
    (symbol : String) (s : MonState) :
    (update_data resps o symbol s).1.running = s.running := by
  unfold update_data
  rcases hf : (fetch_price resps).1 with _ | ⟨t, pr⟩
  · simp [hf]
  · simp only [hf]
    by_cases hp : pr ≠ 0
    · rw [if_pos hp]
      rcases hu : (dictGet s.thresholds symbol).bind ThresholdCfg.upper with _ | u <;>
        rcases hl : (dictGet s.thresholds symbol).bind ThresholdCfg.lower with _ | l <;>
        simp only [hu, hl] <;>
        first
          | rfl
          | trivial
          | (split_ifs <;> rfl)
    · rw [if_neg hp]

/-- C8: the notifier never propagates a transport failure — with no
e-mail configuration the e-mail step is silently skipped; with one, a
failing SMTP session only yields a logged-failure event; and the
transport outcome never changes the resulting monitor state (so the
alerts-list entry is recorded regardless), the returned price, or the
running flag. -/
theorem notifier_never_raises (sym : String) (p : Rat) (tt : TKind)
    (o o1 o2 : Except SmtpError Unit) (c : EmailConfig) (e : SmtpError)
    (resps : Nat → FetchResp) (symbol : String) (s : MonState) :
    send_email_alert none sym p tt o = [] ∧
    send_email_alert (some c) sym p tt (Except.error e) = [Ev.emailFailed e] ∧
    (update_data resps o1 symbol s).1 = (update_data resps o2 symbol s).1 ∧
    (update_data resps o1 symbol s).2.1 = (update_data resps o2 symbol s).2.1 ∧
    (update_data resps o1 symbol s).1.running = s.running :=
  ⟨rfl, rfl, (update_data_state_transport resps o1 o2 symbol s).1,
    (update_data_state_transport resps o1 o2 symbol s).2,
    update_data_running resps o1 symbol s⟩

lemma count_true_zero_of_all_false {l : List Bool} (h : ∀ b ∈ l, b = false) :
    l.count true = 0 := by
  rw [List.count_eq_zero]
  intro hmem
  exact absurd (h true hmem) (by simp)

lemma all_false_of_count_zero {l : List Bool} (h : l.count true = 0) :
    ∀ b ∈ l, b = false := by
  intro b hb
  cases b
  · rfl
  · exact absurd hb (List.count_eq_zero.mp h)

lemma onlyLast_dropLast_false {l : List Bool} (h : onlyLastAlive l = true) :
    ∀ b ∈ l.dropLast, b = false := by
  intro b hb
  have hb2 := (List.all_eq_true.mp h) b hb
  simpa using hb2

lemma stop_sessions_all_false (s : MonState) (h : onlyLastAlive s.sessions = true) :
    ∀ b ∈ (stop_monitoring s).sessions, b = false := by
  unfold stop_monitoring
  rcases hl : s.sessions.getLast? with _ | alive
  · have hnil : s.sessions = [] := List.getLast?_eq_none.mp hl
    simp [hnil]
  · simp only [hl]
    by_cases ha : alive = true
    · subst ha
      simp only [if_pos rfl]
      intro b hb
      rcases List.mem_append.mp hb with hb | hb
      · exact onlyLast_dropLast_false h b hb
      · simpa using hb
    · have ha2 : alive = false := by simpa using ha
      subst ha2
      simp only [Bool.false_eq_true, if_neg, ite_false]
      intro b hb
      have hne : s.sessions ≠ [] := by
        intro he
        rw [he] at hl
        simp at hl
      have hlast : s.sessions.getLast hne = false := by
        have h2 := List.getLast?_eq_getLast s.sessions hne
        rw [hl] at h2
        exact (Option.some_inj.mp h2).symm
      have hsplit := List.dropLast_append_getLast hne
      rw [← hsplit] at hb
      rcases List.mem_append.mp hb with hb | hb
      · exact onlyLast_dropLast_false h b hb
      · rw [hlast] at hb
        simpa using hb

lemma stop_sessions_length (s : MonState) :
    (stop_monitoring s).sessions.length = s.sessions.length := by
  unfold stop_monitoring
  rcases hl : s.sessions.getLast? with _ | alive
  · simp [hl]
  · by_cases ha : alive = true
    · subst ha
      have hne : s.sessions ≠ [] := by
        intro he
        rw [he] at hl
        simp at hl
      have hlen : s.sessions.length ≠ 0 := by
        intro he
        exact hne (List.length_eq_zero.mp he)
      simp [hl, List.length_dropLast]
      omega
    · have ha2 : alive = false := by simpa using ha
      subst ha2
      simp [hl]

lemma stop_running_false (s : MonState) : (stop_monitoring s).running = false := by
  unfold stop_monitoring
  rcases hl : s.sessions.getLast? with _ | alive
  · simp [hl]
  · by_cases ha : alive = true
    · subst ha
      simp [hl]
    · have ha2 : alive = false := by simpa using ha
      subst ha2
      simp [hl]

lemma goodState_count_le_one (s : MonState) (hs : goodState s = true) :
    aliveCount s.sessions ≤ 1 := by
  obtain ⟨h1, _⟩ : onlyLastAlive s.sessions = true ∧
      (s.running || s.sessions.count true == 0) = true := by
    simpa [goodState, Bool.and_eq_true] using hs
  by_cases hne : s.sessions = []
  · simp [aliveCount, hne]
  · have hsplit := List.dropLast_append_getLast hne
    unfold aliveCount
    rw [← hsplit, List.count_append]
    have hz : s.sessions.dropLast.count true = 0 :=
      count_true_zero_of_all_false (onlyLast_dropLast_false h1)
    rw [hz]
    cases s.sessions.getLast hne <;> simp

/-- C1: stop_monitoring first clears the running flag and then joins, so
when it returns every session of the monitor has exited (no alive
session remains) and any further scheduler step of any session is a
complete no-op: no state change, no fetch, no history write, no event at
all. -/
theorem stop_monitoring_quiesces (s : MonState) (resps : Nat → FetchResp)
    (o : Except SmtpError Unit) (sym : String) (itv : Nat) (i : Nat)
    (hs : goodState s = true) :
    (stop_monitoring s).running = false ∧
    aliveCount (stop_monitoring s).sessions = 0 ∧
    threadStepAt i resps o sym itv (stop_monitoring s) = (stop_monitoring s, []) := by
  obtain ⟨h1, _⟩ : onlyLastAlive s.sessions = true ∧
      (s.running || s.sessions.count true == 0) = true := by
    simpa [goodState, Bool.and_eq_true] using hs
  have hall := stop_sessions_all_false s h1
  have hcount : aliveCount (stop_monitoring s).sessions = 0 :=
    count_true_zero_of_all_false hall
  refine ⟨stop_running_false s, hcount, ?_⟩
  unfold threadStepAt
  rcases hi : (stop_monitoring s).sessions[i]? with _ | b
  · simp [hi]
  · have hb : b = false := by
      obtain ⟨hlt, hget⟩ := List.getElem?_eq_some.mp hi
      exact hall b (hget ▸ List.getElem_mem hlt)
    subst hb
    simp [hi]

/-- C1 witness: stopping a state with one running session leaves nothing
alive and a subsequent scheduler step changes nothing. -/
theorem stop_monitoring_quiesces_witness :
    (stop_monitoring sampleRunning).running = false ∧
    aliveCount (stop_monitoring sampleRunning).sessions = 0 ∧
    threadStepAt 0 (fun _ => FetchResp.exn) (Except.ok ()) "IBM" 60
        (stop_monitoring sampleRunning)
      = (stop_monitoring sampleRunning, []) :=
  stop_monitoring_quiesces sampleRunning (fun _ => FetchResp.exn) (Except.ok ())
    "IBM" 60 0 (by decide)

lemma launch_props (s2 : MonState) (n : Nat) (hall : ∀ b ∈ s2.sessions, b = false)
    (hlen : s2.sessions.length = n) :
    goodState (launch s2) = true ∧ aliveCount (launch s2).sessions ≤ 1 ∧
    (launch s2).sessions = List.replicate n false ++ [true] ∧
    (launch s2).running = true := by
  have hrep : s2.sessions = List.replicate n false := by
    have h := List.eq_replicate_of_mem hall
    rw [hlen] at h
    exact h
  have hsess : (launch s2).sessions = List.replicate n false ++ [true] := by
    simp [launch, hrep]
  refine ⟨?_, ?_, hsess, rfl⟩
  · simp [goodState, launch, onlyLastAlive, hrep, List.dropLast_concat,
      List.all_eq_true, List.mem_replicate]
  · unfold aliveCount
    rw [hsess]
    simp [List.count_append, List.count_replicate]

lemma start_tail_props (s1 : MonState) (n : Nat)
    (h1 : onlyLastAlive s1.sessions = true)
    (h2 : (s1.running || s1.sessions.count true == 0) = true)
    (hlen : s1.sessions.length = n) :
    goodState (launch (if s1.running then stop_monitoring s1 else s1)) = true ∧
    aliveCount (launch (if s1.running then stop_monitoring s1 else s1)).sessions ≤ 1 ∧
    (launch (if s1.running then stop_monitoring s1 else s1)).sessions
        = List.replicate n false ++ [true] ∧
    (launch (if s1.running then stop_monitoring s1 else s1)).running = true := by
  by_cases hr : s1.running = true
  · rw [if_pos hr]
    exact launch_props _ n (stop_sessions_all_false s1 h1)
      (by rw [stop_sessions_length]; exact hlen)
  · rw [if_neg hr]
    have hc : s1.sessions.count true = 0 := by
      rcases Bool.or_eq_true_iff.mp h2 with h | h
      · exact absurd h hr
      · simpa using h
    exact launch_props _ n (all_false_of_count_zero hc) hlen

/-- C2: however start_monitoring is invoked on a reachable state, at most
one background session is alive afterwards; and whenever it actually
starts monitoring, every previously started session has fully exited
(been joined) before the new one is spawned — the resulting session list
is all-dead old sessions followed by the single new alive one. -/
theorem start_monitoring_single_session (symRaw : String) (uf lf : EntryInput)
    (s : MonState) (hs : goodState s = true) :
    goodState (start_monitoring symRaw uf lf s).1 = true ∧
    aliveCount (start_monitoring symRaw uf lf s).1.sessions ≤ 1 ∧
    ((start_monitoring symRaw uf lf s).2 = StartOutcome.started →
      (start_monitoring symRaw uf lf s).1.sessions
          = List.replicate s.sessions.length false ++ [true] ∧
      (start_monitoring symRaw uf lf s).1.running = true) := by
  obtain ⟨h1, h2⟩ : onlyLastAlive s.sessions = true ∧
      (s.running || s.sessions.count true == 0) = true := by
    simpa [goodState, Bool.and_eq_true] using hs
  have hcle := goodState_count_le_one s hs
  have success : ∀ (th : List (String × ThresholdCfg)),
      goodState (launch (if ({ s with thresholds := th } : MonState).running
          then stop_monitoring { s with thresholds := th }
          else { s with thresholds := th })) = true ∧
      aliveCount (launch (if ({ s with thresholds := th } : MonState).running
          then stop_monitoring { s with thresholds := th }
          else { s with thresholds := th })).sessions ≤ 1 ∧
      (StartOutcome.started = StartOutcome.started →
        (launch (if ({ s with thresholds := th } : MonState).running
            then stop_monitoring { s with thresholds := th }
            else { s with thresholds := th })).sessions
            = List.replicate s.sessions.length false ++ [true] ∧
        (launch (if ({ s with thresholds := th } : MonState).running
            then stop_monitoring { s with thresholds := th }
            else { s with thresholds := th })).running = true) := by
    intro th
    have hp := start_tail_props { s with thresholds := th } s.sessions.length h1 h2 rfl
    exact ⟨hp.1, hp.2.1, fun _ => ⟨hp.2.2.1, hp.2.2.2⟩⟩
  simp only [start_monitoring]
  by_cases hsym : pyUpper symRaw = ""
  · rw [if_pos hsym]
    exact ⟨hs, hcle, by simp⟩
  · rw [if_neg hsym]
    cases uf with
    | empty =>
      cases lf with
      | empty =>
        simp only [parseEntry]
        exact success (dictSet s.thresholds (pyUpper symRaw) ⟨none, none⟩)
      | invalid => simp only [parseEntry]; exact ⟨hs, hcle, by simp⟩
      | num l =>
        simp only [parseEntry]
        exact success (dictSet s.thresholds (pyUpper symRaw) ⟨none, some l⟩)
    | invalid =>
      cases lf with
      | empty => simp only [parseEntry]; exact ⟨hs, hcle, by simp⟩
      | invalid => simp only [parseEntry]; exact ⟨hs, hcle, by simp⟩
      | num l => simp only [parseEntry]; exact ⟨hs, hcle, by simp⟩
    | num u =>
      cases lf with
      | empty =>
        simp only [parseEntry]
        exact success (dictSet s.thresholds (pyUpper symRaw) ⟨some u, none⟩)
      | invalid => simp only [parseEntry]; exact ⟨hs, hcle, by simp⟩
      | num l =>
        by_cases hbad : (u ≠ 0 ∧ l ≠ 0 ∧ u ≤ l)
        · simp only [parseEntry, decide_eq_true hbad]
          exact ⟨hs, hcle, by simp⟩
        · simp only [parseEntry, decide_eq_false hbad]
          exact success (dictSet s.thresholds (pyUpper symRaw) ⟨some u, some l⟩)

/-- C2 witness: starting for a new symbol while a session is running
joins the old session first and leaves exactly the new one alive. -/
theorem start_monitoring_single_session_witness :
    goodState (start_monitoring "MSFT" (EntryInput.num 90) (EntryInput.num 80)
        sampleRunning).1 = true ∧
    aliveCount (start_monitoring "MSFT" (EntryInput.num 90) (EntryInput.num 80)
        sampleRunning).1.sessions ≤ 1 ∧
    (start_monitoring "MSFT" (EntryInput.num 90) (EntryInput.num 80)
        sampleRunning).1.sessions = [false, true] := by
  have h := start_monitoring_single_session "MSFT" (EntryInput.num 90)
    (EntryInput.num 80) sampleRunning (by decide)
  refine ⟨h.1, h.2.1, ?_⟩
  have h3 := (h.2.2 (by decide)).1
  simpa using h3

/-- C3 counterexample: a reachable state has upper = 0.0 configured for
IBM; the fetched price 5 satisfies "upper is set and price > upper", yet
update_data fires no alert at all — the truthiness guard `if upper:`
treats the configured 0.0 as unset. -/
theorem threshold_zero_upper_not_fired :
    (dictGet zeroUpperState.thresholds "IBM").bind ThresholdCfg.upper = some 0 ∧
    (0 : Rat) < 5 ∧
    (update_data (fun _ => FetchResp.ok [(1, 5)]) (Except.ok ()) "IBM"
        zeroUpperState).1.alerts_list = [] := by
  decide

/-- C3 amended: UPPER fires iff the upper threshold is present and
non-zero (Python truthiness) and price > upper, LOWER iff the lower
threshold is present and non-zero and price < lower; both, one or
neither may fire, and each firing appends its alert-list entry (upper
first) and emits its log line followed by the e-mail step's events. -/
theorem threshold_truthy_characterization (resps : Nat → FetchResp)
    (o : Except SmtpError Unit) (sym : String) (s : MonState) (t : Nat) (p : Rat)
    (hf : (fetch_price resps).1 = some (t, p)) (hp : p ≠ 0) :
    (update_data resps o sym s).1.alerts_list
      = s.alerts_list
        ++ (match (dictGet s.thresholds sym).bind ThresholdCfg.upper with
            | some u =>
              if u ≠ 0 ∧ u < p then
                [{ symbol := sym, price := p, kind := TKind.upper, bound := u }]
              else []
            | none => [])
        ++ (match (dictGet s.thresholds sym).bind ThresholdCfg.lower with
            | some l =>
              if l ≠ 0 ∧ p < l then
                [{ symbol := sym, price := p, kind := TKind.lower, bound := l }]
              else []
            | none => []) ∧
    (update_data resps o sym s).2.2
      = (fetch_price resps).2
        ++ (match (dictGet s.thresholds sym).bind ThresholdCfg.upper with
            | some u =>
              if u ≠ 0 ∧ u < p then
                Ev.alertLog { symbol := sym, price := p, kind := TKind.upper, bound := u }
                  :: send_email_alert s.email_config sym p TKind.upper o
              else []
            | none => [])
        ++ (match (dictGet s.thresholds sym).bind ThresholdCfg.lower with
            | some l =>
              if l ≠ 0 ∧ p < l then
                Ev.alertLog { symbol := sym, price := p, kind := TKind.lower, bound := l }
                  :: send_email_alert s.email_config sym p TKind.lower o
              else []
            | none => []) := by
  unfold update_data
  simp only [hf]
  rw [if_pos hp]
  rcases hu : (dictGet s.thresholds sym).bind ThresholdCfg.upper with _ | u <;>
    rcases hl : (dictGet s.thresholds sym).bind ThresholdCfg.lower with _ | l <;>
    simp only [hu, hl] <;> (try split_ifs) <;>
    first
      | exact ⟨by simp, by simp⟩
      | simp

/-- C3 amended witness: price 100 against upper = 90 (lower unset) fires
exactly the UPPER alert. -/
theorem threshold_truthy_characterization_witness :
    (update_data (fun _ => FetchResp.ok [(1, 100)]) (Except.ok ()) "IBM"
        { initState with thresholds := [("IBM", ⟨some 90, some 85⟩)] }).1.alerts_list
      = [{ symbol := "IBM", price := 100, kind := TKind.upper, bound := 90 }] := by
  have h := threshold_truthy_characterization (fun _ => FetchResp.ok [(1, 100)])
    (Except.ok ()) "IBM" { initState with thresholds := [("IBM", ⟨some 90, some 85⟩)] }
    1 100 rfl (by norm_num)
  rw [h.1]
  decide

/-- C4 counterexample: upper = 0 and lower = 20 are both present with
upper ≤ lower, yet validation passes (`if upper and lower and ...` skips
the order check because 0.0 is falsy), monitoring starts, and state is
mutated. -/
theorem validation_zero_threshold_starts :
    (0 : Rat) ≤ 20 ∧
    (start_monitoring "IBM" (EntryInput.num 0) (EntryInput.num 20) initState).2
      = StartOutcome.started ∧
    (start_monitoring "IBM" (EntryInput.num 0) (EntryInput.num 20) initState).1.running
      = true ∧
    (start_monitoring "IBM" (EntryInput.num 0) (EntryInput.num 20) initState).1.sessions
      = [true] := by
  decide

/-- C4 amended: start_monitoring fails — leaving the whole state exactly
as it was, with no background cycle launched — precisely when the symbol
is empty, a threshold field is non-numeric, or both thresholds are
present, both non-zero (truthy), and upper ≤ lower. -/
theorem start_validation_characterization (symRaw : String) (uf lf : EntryInput)
    (s : MonState) :
    ((start_monitoring symRaw uf lf s).2 ≠ StartOutcome.started ↔
      (pyUpper symRaw = "" ∨ uf = EntryInput.invalid ∨ lf = EntryInput.invalid ∨
        (∃ u l, uf = EntryInput.num u ∧ lf = EntryInput.num l ∧
          u ≠ 0 ∧ l ≠ 0 ∧ u ≤ l))) ∧
    ((start_monitoring symRaw uf lf s).2 ≠ StartOutcome.started →
      (start_monitoring symRaw uf lf s).1 = s) := by
  simp only [start_monitoring]
  by_cases hsym : pyUpper symRaw = ""
  · rw [if_pos hsym]
    constructor
    · simp [hsym]
    · intro _
      rfl
  · rw [if_neg hsym]
    cases uf with
    | empty =>
      cases lf with
      | empty =>
        simp only [parseEntry]
        exact ⟨by simp [hsym], fun hne => absurd rfl hne⟩
      | invalid =>
        simp only [parseEntry]
        exact ⟨by simp, by simp⟩
      | num l =>
        simp only [parseEntry]
        exact ⟨by simp [hsym], fun hne => absurd rfl hne⟩
    | invalid =>
      cases lf with
      | empty =>
        simp only [parseEntry]
        exact ⟨by simp, by simp⟩
      | invalid =>
        simp only [parseEntry]
        exact ⟨by simp, by simp⟩
      | num l =>
        simp only [parseEntry]
        exact ⟨by simp, by simp⟩
    | num u =>
      cases lf with
      | empty =>
        simp only [parseEntry]
        exact ⟨by simp [hsym], fun hne => absurd rfl hne⟩
      | invalid =>
        simp only [parseEntry]
        exact ⟨by simp, by simp⟩
      | num l =>
        by_cases hbad : (u ≠ 0 ∧ l ≠ 0 ∧ u ≤ l)
        · simp only [parseEntry, decide_eq_true hbad]
          exact ⟨by simp [hsym, hbad], fun _ => rfl⟩
        · simp only [parseEntry, decide_eq_false hbad]
          exact ⟨by simp [hsym, hbad], fun hne => absurd rfl hne⟩

/-- C4 amended witness: the empty symbol is rejected and the state is
left exactly as it was. -/
theorem start_validation_characterization_witness :
    (start_monitoring "" EntryInput.empty EntryInput.empty initState).2
        ≠ StartOutcome.started ∧
    (start_monitoring "" EntryInput.empty EntryInput.empty initState).1 = initState := by
  have h := start_validation_characterization "" EntryInput.empty EntryInput.empty initState
  have h2 : (start_monitoring "" EntryInput.empty EntryInput.empty initState).2
      ≠ StartOutcome.started := h.1.mpr (Or.inl (by decide))
  exact ⟨h2, h.2 h2⟩

end StockMonitor
